import Mathlib

/-!
# Verification of the duckdb-motherduck-sync core

A shallow embedding, in Lean 4, of the synchronization core of the
`duckdb-motherduck-sync` TypeScript repository, together with theorems
settling the specification claims about it.

The embedding follows the source files:
 * `src/types/base.ts` — data model (`DbValue`, `DbRecord`, `Change`,
   `Conflict`, `SyncError`, `SyncState`, results);
 * `src/utils/batch.ts` — `chunkArray`, `processBatch`;
 * `src/errors/handler.ts` — `calculateBackoff`, `isRetryable`,
   `retryWithBackoff`;
 * `src/utils/compression.ts` — `compressData`, `decompressData`;
 * `src/core/change-tracker.ts` — `getUnsyncedChanges`, `clearHistory`
   (both the DuckDB-SQL-backed and the in-memory implementations);
 * `src/sync/table-filter.ts` — `createTableFilter`, `filterChangesByTable`;
 * `src/sync/conflict-detector.ts` — `recordsConflict`, `detectConflicts`;
 * `src/sync/conflict-resolver.ts` — `resolveConflict`, `resolveConflicts`;
 * `src/adapters/motherduck.ts` — `parseResponse`, `uploadData`,
   `authenticate`, transport error mapping;
 * `src/sync/engine.ts` — `push`, `pull`, `sync`.

Asynchrony is modelled by explicit traces: a function of the source that
performs I/O becomes a pure Lean function that also returns the list of
observable events it would have produced (states emitted, uploads sent,
processor invocations, delays slept).  JavaScript numbers used as
timestamps, sizes and counters are modelled as `Nat`/`Int`.
-/

namespace DuckDBSync

/-! ## Data model (`src/types/base.ts`) -/

/-- `DbValue` from `types/base.ts`: `string | number | boolean | null |
Date | Uint8Array`.  JS numbers are modelled as `Int`, `Date` by its epoch
milliseconds, `Uint8Array` as a byte list. -/
inductive DbValue where
  | str (s : String)
  | num (n : Int)
  | bool (b : Bool)
  | null
  | date (ms : Int)
  | bytes (bs : List Nat)
deriving DecidableEq, Repr

/-- `DbRecord`: a JS object mapping column names to values; JS objects
iterate keys in insertion order, so the model is an association list. -/
def DbRecord := List (String × DbValue)
deriving DecidableEq, Repr

/-- JS property access `record[key]`: the first binding wins. -/
def DbRecord.get (r : DbRecord) (k : String) : Option DbValue :=
  (List.lookup k r)

/-- `Object.keys(record)` in insertion order. -/
def DbRecord.keys (r : DbRecord) : List String := r.map Prod.fst

/-- `OperationType` from `types/base.ts`. -/
inductive OperationType where
  | INSERT
  | UPDATE
  | DELETE
deriving DecidableEq, Repr

/-- `Change` from `types/base.ts`. -/
structure Change where
  id : String
  table : String
  operation : OperationType
  timestamp : Nat
  data : DbRecord
  oldData : Option DbRecord := none
deriving DecidableEq, Repr

/-- `SyncError` from `types/errors.ts` / `types/base.ts`.  The `timestamp`
and `context` fields carried by every constructor there are operational
metadata (`Date.now()` and free-form context) and are not modelled. -/
inductive SyncError where
  | network (message : String) (retryable : Bool) (statusCode : Option Nat)
  | auth (message : String) (requiresRefresh : Bool)
  | conflict (message : String)
  | quota (message : String) (limit used : Nat)
  | validation (message : String)
  | unknown (message : String)
deriving DecidableEq, Repr

/-- `isRetryable` from `src/errors/handler.ts`: network errors by their
`retryable` flag, auth errors by `requiresRefresh`, all else `false`. -/
def isRetryable : SyncError → Bool
  | .network _ retryable _ => retryable
  | .auth _ requiresRefresh => requiresRefresh
  | _ => false

/-! ## Batch utilities (`src/utils/batch.ts`) -/

/-- The slicing loop of `chunkArray`: `for (i = 0; i < len; i += size)
chunks.push(array.slice(i, i + size))`, with `size ≥ 1`.  Structural
recursion on an explicit fuel, which callers set to the list length. -/
def chunkGo (size : Nat) : Nat → List α → List (List α)
  | 0, _ => []
  | _ + 1, [] => []
  | fuel + 1, a :: l => ((a :: l).take size) :: chunkGo size fuel ((a :: l).drop size)

/-- `chunkArray` from `src/utils/batch.ts`: returns `[]` when
`size <= 0 || array.length === 0`, otherwise fixed-size slices. -/
def chunkArray (array : List α) (size : Int) : List (List α) :=
  if size ≤ 0 ∨ array.isEmpty then []
  else chunkGo size.toNat array.length array

/-- `BatchOptions` from `src/utils/batch.ts` (`delayBetweenBatches` only
inserts sleeps and is not modelled). -/
structure BatchOptions where
  batchSize : Int
  concurrency : Nat
deriving Repr

/-- One concurrency group of `processBatch`: `A.traverse(TE.ApplicativePar)
(processor)` runs the processor on every batch of the group in parallel
(so every batch of the group is invoked even if one fails) and fails with
the leftmost failure; on success results are flattened. -/
def runGroup (processor : List α → Except SyncError (List β))
    (group : List (List α)) : Except SyncError (List β) × List (List α) :=
  ((group.mapM processor).map List.flatten, group)

/-- The sequential traversal of concurrency groups inside `processBatch`
(`A.traverse(TE.ApplicativeSeq)`): a failing group stops the traversal. -/
def runGroups (processor : List α → Except SyncError (List β)) :
    List (List (List α)) → Except SyncError (List β) × List (List α)
  | [] => (.ok [], [])
  | g :: gs =>
    match runGroup processor g with
    | (.error e, invoked) => (.error e, invoked)
    | (.ok bs, invoked) =>
      match runGroups processor gs with
      | (.error e, invoked') => (.error e, invoked ++ invoked')
      | (.ok bs', invoked') => (.ok (bs ++ bs'), invoked ++ invoked')

/-- `processBatch` from `src/utils/batch.ts`.  Returns the overall result
together with the trace of batches the processor was invoked on.  `[]` when
`items.length === 0`; otherwise the items are chunked by `batchSize`, the
batches grouped by `concurrency` (`A.chunksOf`, whose argument is at least
`1` in every call site), and the groups traversed sequentially. -/
def processBatch (items : List α)
    (processor : List α → Except SyncError (List β))
    (options : BatchOptions) : Except SyncError (List β) × List (List α) :=
  if items.isEmpty then (.ok [], [])
  else
    let batches := chunkArray items options.batchSize
    let groups := chunkArray batches (max 1 options.concurrency)
    runGroups processor groups

/-! ## Retry with exponential backoff (`src/errors/handler.ts`) -/

/-- `RetryConfig` from `src/errors/handler.ts`; delays in milliseconds. -/
structure RetryConfig where
  maxAttempts : Nat
  initialDelay : Nat
  maxDelay : Nat
  backoffFactor : Nat
deriving DecidableEq, Repr

/-- `calculateBackoff` from `src/errors/handler.ts`:
`min(initialDelay * backoffFactor^(attempt-1), maxDelay)`. -/
def calculateBackoff (attempt : Nat) (config : RetryConfig) : Nat :=
  min (config.initialDelay * config.backoffFactor ^ (attempt - 1)) config.maxDelay

/-- Observable outcome of a `retryWithBackoff` run: the final result, the
number of times the wrapped task executed, and the delays slept between
attempts, in order. -/
structure RetryTrace (α : Type) where
  result : Except SyncError α
  execs : Nat
  delays : List Nat
deriving Repr

/-- The recursive `attempt` closure of `retryWithBackoff`.  The task is
modelled by `outcomes`, giving the result of its `n`-th execution.
`remaining` counts the retries still allowed (`maxAttempts - current` of
the source: the source stops when `currentAttempt >= config.maxAttempts`,
i.e. when no retries remain). -/
def retryGo (config : RetryConfig) (outcomes : Nat → Except SyncError α) :
    Nat → Nat → RetryTrace α
  | 0, current =>
    match outcomes current with
    | .ok a => ⟨.ok a, 1, []⟩
    | .error e => ⟨.error e, 1, []⟩
  | r + 1, current =>
    match outcomes current with
    | .ok a => ⟨.ok a, 1, []⟩
    | .error e =>
      if isRetryable e then
        let t := retryGo config outcomes r (current + 1)
        ⟨t.result, t.execs + 1, calculateBackoff current config :: t.delays⟩
      else ⟨.error e, 1, []⟩

/-- `retryWithBackoff` from `src/errors/handler.ts`: starts at attempt 1;
when the `n`-th execution fails it gives up if `n >= maxAttempts` or the
error is not retryable, and otherwise sleeps `calculateBackoff(n)` and
retries. -/
def retryWithBackoff (config : RetryConfig)
    (outcomes : Nat → Except SyncError α) : RetryTrace α :=
  retryGo config outcomes (config.maxAttempts - 1) 1

/-! ## Compression (`src/utils/compression.ts`) -/

/-- Modelled from the spec: the external `pako` gzip encoder used by
`compressData` (the library itself is not part of the repository).  Per the
spec the gzip wire format opens with the magic bytes `0x1f 0x8b` (followed
by the compression-method byte `0x08`) and `ungzip` inverts `gzip`; the
payload encoding is abstracted to the identity, which preserves exactly the
properties the specification states about it. -/
def gzip (input : List Nat) : List Nat :=
  0x1f :: 0x8b :: 0x08 :: input

/-- Modelled from the spec: `pako.ungzip`, the inverse of [gzip]; it throws
on input that is not a gzip stream (here: anything not produced by
[gzip]). -/
def ungzip : List Nat → Option (List Nat)
  | 0x1f :: 0x8b :: 0x08 :: rest => some rest
  | _ => none

/-- `compressData` from `src/utils/compression.ts` (byte input; the string
overload first UTF-8-encodes).  Data shorter than the threshold is
returned as-is, otherwise gzipped. -/
def compressData (threshold : Nat) (input : List Nat) : List Nat :=
  if input.length < threshold then input else gzip input

/-- `decompressData` from `src/utils/compression.ts`: checks the gzip
magic (`data.length >= 2 && data[0] === 0x1f && data[1] === 0x8b`),
ungzips when present — surfacing an `unknown` error if `pako.ungzip`
throws — and passes anything else through unchanged. -/
def decompressData (data : List Nat) : Except SyncError (List Nat) :=
  match data with
  | a :: b :: rest =>
    if a = 0x1f ∧ b = 0x8b then
      match ungzip (a :: b :: rest) with
      | some out => .ok out
      | none => .error (.unknown "Decompression failed")
    else .ok (a :: b :: rest)
  | short => .ok short

/-! ## Change tracker (`src/core/change-tracker.ts`) -/

/-- A row of the `_sync_changes` relation kept by the DuckDB-backed
tracker (`createChangeTracker`): a change plus its `synced` flag.  The
list order is the insertion order of the rows. -/
structure ChangeRow where
  change : Change
  synced : Bool
deriving DecidableEq, Repr

/-- Stable insertion into a timestamp-ascending list: the new element goes
before the first element with a timestamp not smaller than its own. -/
def insertByTs (c : ChangeRow) : List ChangeRow → List ChangeRow
  | [] => [c]
  | d :: ds =>
    if c.change.timestamp ≤ d.change.timestamp then c :: d :: ds
    else d :: insertByTs c ds

/-- Model of SQL `ORDER BY timestamp ASC` over the row list: a stable sort
by timestamp (rows with equal timestamps keep their relative order). -/
def sortByTs : List ChangeRow → List ChangeRow
  | [] => []
  | c :: cs => insertByTs c (sortByTs cs)

/-- `getUnsyncedChanges` of `createChangeTracker`
(`src/core/change-tracker.ts`): `SELECT … FROM _sync_changes WHERE
synced = 0 AND timestamp > $1 ORDER BY timestamp ASC` (the source then maps
rows back to `Change` values; the model keeps the rows). -/
def getUnsyncedChangesDuckdb (log : List ChangeRow) (since : Nat) :
    List ChangeRow :=
  sortByTs (log.filter fun r => r.synced = false ∧ since < r.change.timestamp)

/-- `clearHistory` of `createChangeTracker`: `DELETE FROM _sync_changes
WHERE timestamp < $1 AND synced = 1`. -/
def clearHistoryDuckdb (log : List ChangeRow) (before : Nat) :
    List ChangeRow :=
  log.filter fun r => ¬(r.change.timestamp < before ∧ r.synced = true)

/-- State of `createMemoryChangeTracker` (`src/core/change-tracker.ts`):
the `changes` array in insertion order and the `syncedIds` set. -/
structure MemTrackerState where
  changes : List Change
  syncedIds : List String
deriving Repr

/-- `getUnsyncedChanges` of `createMemoryChangeTracker`:
`changes.filter(c => !syncedIds.has(c.id) && c.timestamp > since)`. -/
def getUnsyncedChangesMemory (st : MemTrackerState) (since : Nat) :
    List Change :=
  st.changes.filter fun c => c.id ∉ st.syncedIds ∧ since < c.timestamp

/-- `clearHistory` of `createMemoryChangeTracker`: removes from `changes`
every element with `timestamp < before` that is in `syncedIds`, and drops
the removed ids from `syncedIds`. -/
def clearHistoryMemory (st : MemTrackerState) (before : Nat) :
    MemTrackerState :=
  let toRemove := st.changes.filter fun c =>
    c.timestamp < before ∧ c.id ∈ st.syncedIds
  { changes := st.changes.filter fun c =>
      ¬(c.timestamp < before ∧ c.id ∈ st.syncedIds),
    syncedIds := st.syncedIds.filter fun i => ¬ toRemove.any (·.id = i) }

/-! ## Table filter (`src/sync/table-filter.ts`) -/

/-- `TableFilterConfig` from `src/sync/table-filter.ts`.  Regex patterns
are modelled as decidable predicates on table names. -/
structure TableFilterConfig where
  includeTables : List String := []
  excludeTables : List String := []
  includePatterns : List (String → Bool) := []
  excludePatterns : List (String → Bool) := []

/-- `createTableFilter` from `src/sync/table-filter.ts`: explicit excludes,
then exclude patterns, then accept-all when both include lists are empty,
then explicit includes, then include patterns, else reject. -/
def createTableFilter (config : TableFilterConfig) (table : String) : Bool :=
  if table ∈ config.excludeTables then false
  else if config.excludePatterns.any fun p => p table then false
  else if config.includeTables.isEmpty ∧ config.includePatterns.isEmpty then true
  else if table ∈ config.includeTables then true
  else if config.includePatterns.any fun p => p table then true
  else false

/-- `filterChangesByTable` from `src/sync/table-filter.ts`. -/
def filterChangesByTable (changes : List Change)
    (filter : String → Bool) : List Change :=
  changes.filter fun change => filter change.table

/-! ## JS value helpers

`recordsConflict` and `detectConflicts` compare values via JavaScript
truthiness, `===`, string templates and `JSON.stringify`; these helpers
model those builtins on `DbValue`. -/

/-- JavaScript truthiness of a possibly-absent property value. -/
def truthy : Option DbValue → Bool
  | none => false
  | some .null => false
  | some (.bool b) => b
  | some (.num n) => n ≠ 0
  | some (.str s) => s ≠ ""
  | some (.date _) => true
  | some (.bytes _) => true

/-- Numeric coercion as used by `localTime - remoteTime` on
`_sync_timestamp` values: numbers are themselves, `Date`s coerce to their
epoch milliseconds, anything else gives `NaN` (modelled as `none`). -/
def numCoerce : Option DbValue → Option Int
  | some (.num n) => some n
  | some (.date ms) => some ms
  | _ => none

/-- JS string coercion (template literals, `as string` casts on values that
are then interpolated). -/
def jsToString : DbValue → String
  | .str s => s
  | .num n => toString n
  | .bool b => if b then "true" else "false"
  | .null => "null"
  | .date ms => "Date(" ++ toString ms ++ ")"
  | .bytes bs => String.intercalate "," (bs.map toString)

/-- `JSON.stringify` on a single value (escaping inside string payloads is
elided; the claims never depend on it). -/
def jsonStringifyValue : DbValue → String
  | .str s => "\"" ++ s ++ "\""
  | .num n => toString n
  | .bool b => if b then "true" else "false"
  | .null => "null"
  | .date ms => "\"" ++ "Date(" ++ toString ms ++ ")" ++ "\""
  | .bytes bs =>
    "\x7b" ++ String.intercalate "," (bs.map toString) ++ "\x7d"

/-- `JSON.stringify` of a possibly-absent property: JS yields `undefined`
(not a string) for `undefined` input, so the result is an `Option`. -/
def jsonStringifyOpt : Option DbValue → Option String :=
  Option.map jsonStringifyValue

/-- `JSON.stringify` of a whole record (key order = insertion order). -/
def jsonStringifyRecord (r : DbRecord) : String :=
  "\x7b" ++
    String.intercalate ","
      (r.map fun kv => "\"" ++ kv.1 ++ "\":" ++ jsonStringifyValue kv.2) ++
  "\x7d"

/-! ## Conflict detector (`src/sync/conflict-detector.ts`) -/

/-- `ConflictDetectionOptions` from `src/sync/conflict-detector.ts`. -/
structure ConflictDetectionOptions where
  considerTimestamp : Bool := false
  timestampTolerance : Option Nat := none
deriving Repr

/-- `recordsConflict` from `src/sync/conflict-detector.ts`.  With
`considerTimestamp`, records whose truthy numeric `_sync_timestamp`s lie
within the tolerance (`options.timestampTolerance || 1000`) count as equal;
otherwise records conflict when their non-`_sync_`-prefixed key sets have
different sizes or some shared key's values stringify differently. -/
def recordsConflict (localRec remote : DbRecord)
    (options : ConflictDetectionOptions := {}) : Bool :=
  let sameByTs : Bool :=
    options.considerTimestamp &&
      truthy (localRec.get "_sync_timestamp") &&
      truthy (remote.get "_sync_timestamp") &&
      match numCoerce (localRec.get "_sync_timestamp"),
            numCoerce (remote.get "_sync_timestamp") with
      | some lt, some rt =>
        let tolerance : Nat :=
          match options.timestampTolerance with
          | none => 1000
          | some 0 => 1000
          | some t => t
        decide ((lt - rt).natAbs < tolerance)
      | _, _ => false
  if sameByTs then false
  else
    let localKeys := localRec.keys.filter fun k => ¬ k.startsWith "_sync_"
    let remoteKeys := remote.keys.filter fun k => ¬ k.startsWith "_sync_"
    if localKeys.length ≠ remoteKeys.length then true
    else localKeys.any fun key =>
      jsonStringifyOpt (localRec.get key) ≠ jsonStringifyOpt (remote.get key)

/-- The conflict record built by `detectConflicts` in
`src/sync/conflict-detector.ts` (its `detectedAt : Date.now()` field is
operational metadata and not modelled). -/
structure DetectedConflict where
  id : String
  table : String
  recordId : String
  localVersion : DbRecord
  remoteVersion : DbRecord
  localTimestamp : Nat
  remoteTimestamp : Nat
deriving DecidableEq, Repr

/-- JS `Map.set`: overwrites the value of an existing key in place,
appends new keys; iteration order is first-insertion order. -/
def mapSet (k : String) (v : Change) :
    List (String × Change) → List (String × Change)
  | [] => [(k, v)]
  | (k', v') :: rest =>
    if k' = k then (k, v) :: rest else (k', v') :: mapSet k v rest

/-- The `localByKey` / `remoteByKey` maps of `detectConflicts`: changes
whose `data['id']` is truthy, keyed by `` `${table}:${recordId}` ``. -/
def byKey (changes : List Change) : List (String × Change) :=
  changes.foldl
    (fun m change =>
      match change.data.get "id" with
      | some v =>
        if truthy (some v) then
          mapSet (change.table ++ ":" ++ jsToString v) change m
        else m
      | none => m)
    []

/-- First pass of `detectConflicts`: for each entry of `localByKey`, a
same-key remote change with conflicting data, or — for a local `UPDATE`
with no same-key remote change — a remote `DELETE` whose
`oldData?.['id']` strictly equals the local `data['id']`. -/
def detectPass1 (options : ConflictDetectionOptions)
    (localByKey remoteByKey : List (String × Change)) :
    List DetectedConflict :=
  localByKey.foldl
    (fun conflicts kv =>
      let key := kv.1
      let localChange := kv.2
      match List.lookup key remoteByKey with
      | some remoteChange =>
        if recordsConflict localChange.data remoteChange.data options then
          conflicts ++
            [{ id := "conflict_" ++ localChange.id ++ "_" ++ remoteChange.id,
               table := localChange.table,
               recordId :=
                 jsToString ((localChange.data.get "id").getD .null),
               localVersion := localChange.data,
               remoteVersion := remoteChange.data,
               localTimestamp := localChange.timestamp,
               remoteTimestamp := remoteChange.timestamp }]
        else conflicts
      | none =>
        if localChange.operation = .UPDATE then
          match (remoteByKey.map Prod.snd).find? (fun change =>
              change.table = localChange.table ∧
              change.operation = .DELETE ∧
              (change.oldData.bind fun od => od.get "id") =
                localChange.data.get "id") with
          | some remoteDelete =>
            conflicts ++
              [{ id := "conflict_" ++ localChange.id ++ "_delete",
                 table := localChange.table,
                 recordId :=
                   jsToString ((localChange.data.get "id").getD .null),
                 localVersion := localChange.data,
                 remoteVersion := [],
                 localTimestamp := localChange.timestamp,
                 remoteTimestamp := remoteDelete.timestamp }]
          | none => conflicts
        else conflicts)
    []

/-- Second pass of `detectConflicts`: each remote `DELETE` with a truthy
`oldData?.['id']` against a local `UPDATE` of the same table and id, unless
a conflict for that record id was already collected. -/
def detectPass2 (localByKey : List (String × Change))
    (remoteChanges : List Change)
    (conflicts : List DetectedConflict) : List DetectedConflict :=
  remoteChanges.foldl
    (fun conflicts remoteChange =>
      if remoteChange.operation = .DELETE then
        match remoteChange.oldData.bind fun od => od.get "id" with
        | some rid =>
          if truthy (some rid) then
            match (localByKey.map Prod.snd).find? (fun change =>
                change.table = remoteChange.table ∧
                change.operation = .UPDATE ∧
                change.data.get "id" = some rid) with
            | some localUpdate =>
              if conflicts.any (fun c => c.recordId = jsToString rid) then
                conflicts
              else
                conflicts ++
                  [{ id := "conflict_delete_" ++ localUpdate.id,
                     table := remoteChange.table,
                     recordId := jsToString rid,
                     localVersion := localUpdate.data,
                     remoteVersion := [],
                     localTimestamp := localUpdate.timestamp,
                     remoteTimestamp := remoteChange.timestamp }]
            | none => conflicts
          else conflicts
        | none => conflicts
      else conflicts)
    conflicts

/-- Third pass of `detectConflicts`: each local `DELETE` with a truthy
`oldData?.['id']` against a remote `UPDATE` (from `remoteByKey`) of the
same table and id, unless already collected. -/
def detectPass3 (remoteByKey : List (String × Change))
    (localChanges : List Change)
    (conflicts : List DetectedConflict) : List DetectedConflict :=
  localChanges.foldl
    (fun conflicts localChange =>
      if localChange.operation = .DELETE then
        match localChange.oldData.bind fun od => od.get "id" with
        | some rid =>
          if truthy (some rid) then
            match (remoteByKey.map Prod.snd).find? (fun change =>
                change.table = localChange.table ∧
                change.operation = .UPDATE ∧
                change.data.get "id" = some rid) with
            | some remoteUpdate =>
              if conflicts.any (fun c => c.recordId = jsToString rid) then
                conflicts
              else
                conflicts ++
                  [{ id := "conflict_" ++ localChange.id ++ "_" ++
                       remoteUpdate.id,
                     table := localChange.table,
                     recordId := jsToString rid,
                     localVersion := [],
                     remoteVersion := remoteUpdate.data,
                     localTimestamp := localChange.timestamp,
                     remoteTimestamp := remoteUpdate.timestamp }]
            | none => conflicts
          else conflicts
        | none => conflicts
      else conflicts)
    conflicts

/-- `detectConflicts` from `src/sync/conflict-detector.ts`: indexes both
sides by `(table, data['id'])` and runs the three passes above over the
shared accumulator. -/
def detectConflicts (localChanges remoteChanges : List Change)
    (options : ConflictDetectionOptions := {}) : List DetectedConflict :=
  let localByKey := byKey localChanges
  let remoteByKey := byKey remoteChanges
  detectPass3 remoteByKey localChanges
    (detectPass2 localByKey remoteChanges
      (detectPass1 options localByKey remoteByKey))

/-! ## Conflict resolver (`src/sync/conflict-resolver.ts`) -/

/-- `Conflict` from `src/types/base.ts`, as consumed by the resolver. -/
structure Conflict where
  table : String
  key : DbRecord
  localValue : DbRecord
  remoteValue : DbRecord
  localTimestamp : Nat
  remoteTimestamp : Nat

/-- `ConflictStrategy` from `src/types/base.ts`; a `merge` strategy
carries its merge function (JS `Error` results are modelled by their
message string). -/
inductive ConflictStrategy where
  | localWins
  | remoteWins
  | latestWins
  | merge (mergeFunction : DbRecord → DbRecord → Except String DbRecord)
  | manual

/-- `resolveConflict` from `src/sync/conflict-resolver.ts`.  The source's
`default` branch is unreachable for well-typed strategies and has no
counterpart here. -/
def resolveConflict (conflict : Conflict) (strategy : ConflictStrategy) :
    Except String DbRecord :=
  match strategy with
  | .localWins => .ok conflict.localValue
  | .remoteWins => .ok conflict.remoteValue
  | .latestWins =>
    .ok (if conflict.remoteTimestamp < conflict.localTimestamp
         then conflict.localValue else conflict.remoteValue)
  | .merge mergeFunction =>
    mergeFunction conflict.localValue conflict.remoteValue
  | .manual =>
    .error ("Manual conflict resolution required for " ++ conflict.table)

/-- `resolveConflicts` from `src/sync/conflict-resolver.ts`:
`A.traverse(E.Applicative)` over the conflicts, written as the equivalent
left-to-right recursion — the leftmost resolver failure fails the whole
batch. -/
def resolveConflicts (conflicts : List Conflict)
    (strategy : ConflictStrategy) :
    Except String (List (Conflict × DbRecord)) :=
  match conflicts with
  | [] => .ok []
  | conflict :: rest =>
    match resolveConflict conflict strategy with
    | .error e => .error e
    | .ok resolution =>
      match resolveConflicts rest strategy with
      | .error e => .error e
      | .ok rests => .ok ((conflict, resolution) :: rests)

/-! ## MotherDuck adapter (`src/adapters/motherduck.ts`) -/

/-- Whether the body of a non-ok response decodes under `ApiErrorCodec`
(an object with an `error` message), as checked by `parseResponse`. -/
inductive ApiBody where
  | apiError (msg : String)
  | other
deriving DecidableEq, Repr

/-- A JavaScript value reaching the `TE.tryCatch` error handler of
`parseResponse`.  The `authError`/`networkError`/`validationError`
factories in `types/errors.ts` return *plain object literals*, never
`Error` instances, so everything the `parseResponse` body `throw`s is a
`plainObject`; `errorInstance` covers genuine `Error`s (e.g. a
`SyntaxError` from `response.json()`); `syncErrorInstance` is the
handler's pass-through case — an `Error` instance that also carries
`type`/`timestamp`/`message` fields — which nothing in the adapter ever
produces. -/
inductive ThrownValue where
  | plainObject (e : SyncError)
  | errorInstance (message : String)
  | syncErrorInstance (e : SyncError)
deriving DecidableEq, Repr

/-- The `TE.tryCatch` error handler of `parseResponse`
(`src/adapters/motherduck.ts` lines 96-103): only a value passing the
`error instanceof Error` gate *and* carrying `type`/`timestamp`/`message`
fields is surfaced as-is; every other thrown value — in particular every
plain-object `SyncError` the body throws — is replaced by
`unknownError('Failed to parse response', error)`. -/
def parseResponseHandler : ThrownValue → SyncError
  | .plainObject _ => .unknown "Failed to parse response"
  | .errorInstance _ => .unknown "Failed to parse response"
  | .syncErrorInstance e => e

/-- What the body of `parseResponse` `throw`s for a non-ok response: the
plain-object `authError(msg, true)` on a parseable 401 body, a
plain-object `networkError` otherwise.  (These are the values the
handler then swallows.) -/
def parseResponseThrown (status : Nat) (body : ApiBody) : ThrownValue :=
  .plainObject
    (match body with
     | .apiError msg =>
       if status = 401 then .auth msg true
       else .network msg (500 ≤ status) none
     | .other =>
       .network ("HTTP " ++ toString status) (500 ≤ status) (some status))

/-- `parseResponse` from `src/adapters/motherduck.ts`, as a function of
the observable response: `ok`/`status`, the error-body decode outcome
`body`, and — for ok responses — the payload decode outcome `decoded`
(modelling `validate(codec)(data)`).  A non-ok response throws a
plain-object error ([parseResponseThrown]); an ok response with a failing
decode throws `validated.left`, also a plain object; both land in
[parseResponseHandler], which converts them to
`unknownError('Failed to parse response')` — the behavior the repo's own
adapter tests assert. -/
def parseResponse (ok : Bool) (status : Nat) (body : ApiBody)
    (decoded : Except SyncError α) : Except SyncError α :=
  if ok then
    match decoded with
    | .ok v => .ok v
    | .error e => .error (parseResponseHandler (.plainObject e))
  else .error (parseResponseHandler (parseResponseThrown status body))

/-- The error produced by `fetchWithTimeout` on transport failure: both
the `AbortError` timeout branch and any other fetch exception yield
`networkError(message, true)`. -/
def transportFailure (message : String) : SyncError :=
  .network message true none

/-- The response handling of `uploadData` in `src/adapters/motherduck.ts`:
any non-ok status — 4xx included — becomes
`networkError(message, true, status)`. -/
def uploadDataResponse (ok : Bool) (status : Nat) : Except SyncError Unit :=
  if ok then .ok ()
  else .error (.network ("Failed to upload data: HTTP " ++ toString status)
    true (some status))

/-- The response handling of `authenticate` in
`src/adapters/motherduck.ts`: non-ok yields `authError("Invalid token",
false)`. -/
def authenticateResponse (ok : Bool) : Except SyncError Unit :=
  if ok then .ok () else .error (.auth "Invalid token" false)

/-! ## Sync engine (`src/sync/engine.ts`)

The engine is modelled on its happy path for dependencies that cannot
fail, matching `createMemoryChangeTracker` and `createMockMotherDuckClient`
(whose operations always succeed): the change tracker is a list of
unsynced changes, the remote client a total download function.  Each
operation returns, besides its result, the trace of the observable events
it produces (state emissions via `updateState`, `uploadData` calls). -/

/-- `SyncState` from `src/types/base.ts`. -/
inductive SyncState where
  | idle
  | syncing (progress : Nat)
  | error (message : String)
  | conflictState (conflicts : List DetectedConflict)
deriving DecidableEq, Repr

/-- The engine-relevant fields of `SyncConfig` (`src/types/base.ts`). -/
structure SyncConfig where
  motherduckToken : String
  tables : List String := []
  conflictStrategy : Option ConflictStrategy := none
  enableCompression : Bool := false
  tableFilter : Option TableFilterConfig := none

/-- `config?.conflictStrategy?.type === 'manual'`. -/
def SyncConfig.isManual (cfg : SyncConfig) : Bool :=
  match cfg.conflictStrategy with
  | some .manual => true
  | _ => false

/-- Pure model of the engine's dependencies: the unsynced changes the
change tracker holds, and the rows `downloadData` returns per table. -/
structure EngineDeps where
  unsynced : List Change
  remote : String → List DbRecord

/-- String-to-bytes encoding (`TextEncoder` on the model's code points). -/
def strBytes (s : String) : List Nat := s.toList.map Char.toNat

/-- `JSON.stringify` of an array of records, as produced by
`compressJson(tableChanges.map(c => c.data))` in the push flow. -/
def jsonStringifyRecords (rs : List DbRecord) : String :=
  "[" ++ String.intercalate "," (rs.map jsonStringifyRecord) ++ "]"

/-- What one `uploadData(table, …)` call carries: the raw post-image rows,
or — when compression is enabled — the `compressJson` bytes. -/
inductive Payload where
  | raw (rows : List DbRecord)
  | compressed (bytes : List Nat)
deriving DecidableEq, Repr

/-- One `uploadData` call observed at the MotherDuck client. -/
structure Upload where
  table : String
  payload : Payload
deriving DecidableEq, Repr

/-- The `changes.reduce(...)` grouping of `push`: JS object keys appear in
first-occurrence order, each holding its table's changes in list order. -/
def insertGrouped (c : Change) :
    List (String × List Change) → List (String × List Change)
  | [] => [(c.table, [c])]
  | (t, g) :: rest =>
    if t = c.table then (t, g ++ [c]) :: rest
    else (t, g) :: insertGrouped c rest

/-- `Object.entries(changesByTable)` of the push flow. -/
def groupByTable (changes : List Change) : List (String × List Change) :=
  changes.foldl (fun acc c => insertGrouped c acc) []

/-- The single `uploadData` call made for one `[table, tableChanges]`
entry of the push flow: raw `data` rows, or `compressJson` of them (with
the default 1024-byte threshold) when `config.enableCompression`. -/
def mkUpload (cfg : SyncConfig) (entry : String × List Change) : Upload :=
  { table := entry.1,
    payload :=
      if cfg.enableCompression then
        .compressed (compressData 1024
          (strBytes (jsonStringifyRecords (entry.2.map (·.data)))))
      else .raw (entry.2.map (·.data)) }

/-- `PushResult` from `src/types/base.ts` (`errors` is always `[]` on this
engine's happy path); `markedIds` records the `markSynced` argument. -/
structure PushResult where
  uploaded : Nat
  failed : Nat
  markedIds : List String
deriving DecidableEq, Repr

/-- `push` from `src/sync/engine.ts`: fetch unsynced changes (`uploaded=0`
when none), group by table, hand the entries to
`createBatchProcessor(…, 100, { batchSize: 10, concurrency: 3 })` —
each entry becoming one `uploadData` call — then `markSynced` all fetched
change ids.  Returns the result and the `uploadData` trace.  The table
filter configured in `cfg.tableFilter` is not consulted anywhere. -/
def push (cfg : SyncConfig) (deps : EngineDeps) : PushResult × List Upload :=
  if deps.unsynced.isEmpty then
    ({ uploaded := 0, failed := 0, markedIds := [] }, [])
  else
    let entries := groupByTable deps.unsynced
    let pb := processBatch entries
      (fun batch => .ok (batch.map fun e => e.2.length))
      { batchSize := 10, concurrency := 3 }
    let uploaded := match pb.1 with
      | .ok counts => counts.sum
      | .error _ => 0
    ({ uploaded := uploaded, failed := 0,
       markedIds := deps.unsynced.map (·.id) },
     pb.2.flatten.map (mkUpload cfg))

/-- `PullResult` from `src/types/base.ts` (`errors` always `[]` here). -/
structure PullResult where
  downloaded : Nat
  applied : Nat
deriving DecidableEq, Repr

/-- `pull` from `src/sync/engine.ts`: fails when no tables are configured;
otherwise downloads every table and replaces the local contents inside a
transaction (the local store operations are total in the model). -/
def pull (cfg : SyncConfig) (deps : EngineDeps) :
    Except SyncError PullResult :=
  if cfg.tables.isEmpty then
    .error (.unknown "No tables configured for sync")
  else
    let counts := cfg.tables.map fun table => (deps.remote table).length
    .ok { downloaded := counts.sum, applied := counts.sum }

/-- `SyncResult` from `src/types/base.ts` (`duration` and `errors` are
omitted: the first is wall-clock, the second always empty here). -/
structure SyncResult where
  pushed : Nat
  pulled : Nat
  conflicts : List DetectedConflict
deriving DecidableEq, Repr

/-- `sync` from `src/sync/engine.ts`: emits `syncing` progress 0, 10, 30,
40, 60, 80 around its phases, downloads the configured tables (the rows
are flattened and then *discarded*), calls
`detectConflicts(localChanges, [])` with an empty remote change list,
skips push when conflicts exist under a `manual` strategy, pulls, and on
success emits `idle`.  Returns the result, the emitted state trace and
the `uploadData` trace. -/
def sync (cfg : SyncConfig) (deps : EngineDeps) :
    Except SyncError SyncResult × List SyncState × List Upload :=
  let localChanges := deps.unsynced
  let _remoteData := (cfg.tables.map deps.remote).flatten
  let conflicts := detectConflicts localChanges []
  let pushStep :=
    if conflicts.length > 0 ∧ cfg.isManual then
      ({ uploaded := 0, failed := 0, markedIds := [] }, ([] : List Upload))
    else push cfg deps
  let states : List SyncState :=
    [.syncing 0, .syncing 10, .syncing 30, .syncing 40, .syncing 60,
     .syncing 80]
  match pull cfg deps with
  | .error e => (.error e, states, pushStep.2)
  | .ok pullResult =>
    (.ok { pushed := pushStep.1.uploaded, pulled := pullResult.applied,
           conflicts := conflicts },
     states ++ [.idle], pushStep.2)

/-! ## Concrete inputs used by witnesses and counterexamples -/

/-- A task that fails twice with a retryable network error and then
succeeds, used to witness `retryWithBackoff_spec`. -/
def flakyTask : Nat → Except SyncError Nat := fun n =>
  if n < 3 then .error (.network "connection reset" true none) else .ok 7

/-- A synced row with timestamp 3, used by the witnesses. -/
def rowS : ChangeRow where
  change :=
    { id := "s", table := "users", operation := .INSERT, timestamp := 3,
      data := [] }
  synced := true

/-- An unsynced row older than every cutoff used in the witnesses. -/
def rowU : ChangeRow where
  change :=
    { id := "u", table := "users", operation := .UPDATE, timestamp := 1,
      data := [] }
  synced := false

/-- An unsynced change with id `"b"`, part of `memSt`. -/
def chB : Change :=
  { id := "b", table := "users", operation := .INSERT, timestamp := 5,
    data := [] }

/-- A small memory-tracker state with distinct ids, `"a"` synced. -/
def memSt : MemTrackerState where
  changes :=
    [{ id := "a", table := "users", operation := .INSERT, timestamp := 1,
       data := [] },
     chB]
  syncedIds := ["a"]

/-- A concrete conflict used by the C6 witness. -/
def conflictW : Conflict :=
  { table := "users", key := [("id", .str "1")],
    localValue := [("id", .str "1"), ("name", .str "Local")],
    remoteValue := [("id", .str "1"), ("name", .str "Remote")],
    localTimestamp := 1000, remoteTimestamp := 2000 }

/-- A local `UPDATE` of `users` row id 1, the C1 failing input's local
side. -/
def u1 : Change :=
  { id := "lc1", table := "users", operation := .UPDATE, timestamp := 1000,
    data := [("id", .str "1"), ("name", .str "Local")] }

/-- The diverging remote row for `users` id 1. -/
def r1 : DbRecord := [("id", .str "1"), ("name", .str "Remote")]

/-- The remote row of `r1` wrapped as a remote change, the comparison the
specification demands of conflict detection. -/
def rc1 : Change :=
  { id := "rc1", table := "users", operation := .UPDATE, timestamp := 2000,
    data := r1 }

/-- Engine configuration syncing `users` under `latest-wins`. -/
def cfg1 : SyncConfig :=
  { motherduckToken := "t", tables := ["users"],
    conflictStrategy := some .latestWins }

/-- Engine dependencies: one local unsynced change, one diverging remote
row for the same key. -/
def deps1 : EngineDeps :=
  { unsynced := [u1], remote := fun t => if t = "users" then [r1] else [] }

/-- A table filter configuration excluding `logs`. -/
def fcfg2 : TableFilterConfig := { excludeTables := ["logs"] }

/-- Engine configuration whose `tableFilter` excludes `logs`. -/
def cfg2 : SyncConfig :=
  { motherduckToken := "t", tables := ["users", "logs"],
    tableFilter := some fcfg2 }

/-- An unsynced change on `users`. -/
def cu : Change :=
  { id := "c1", table := "users", operation := .INSERT, timestamp := 1,
    data := [("id", .str "1")] }

/-- An unsynced change on the excluded table `logs`. -/
def cl : Change :=
  { id := "c2", table := "logs", operation := .INSERT, timestamp := 2,
    data := [("id", .str "2")] }

/-- Engine dependencies holding one `users` change and one `logs`
change. -/
def deps2 : EngineDeps :=
  { unsynced := [cu, cl], remote := fun _ => [] }

/-! ## Claim C10 — nonpositive batch sizes silently drop items -/

/-- C10: for every batch size `n ≤ 0` and item list `xs`, `chunkArray xs n`
is the empty list, and `processBatch` with that batch size succeeds with an
empty result and never invokes the processor — the items are silently
dropped rather than an error being returned. -/
theorem chunkArray_nonpos_drops_items (n : Int) (h : n ≤ 0) (xs : List α)
    (proc : List α → Except SyncError (List β)) (c : Nat) :
    chunkArray xs n = [] ∧
    processBatch xs proc { batchSize := n, concurrency := c } =
      (.ok [], []) := by
  have hchunk : chunkArray xs n = ([] : List (List α)) := by
    simp [chunkArray, h]
  refine ⟨hchunk, ?_⟩
  by_cases he : xs.isEmpty
  · simp [processBatch, he]
  · simp [processBatch, he, hchunk, chunkArray, runGroups, h]

/-- Witness for `chunkArray_nonpos_drops_items` at `n = -2`,
`xs = [1,2,3]`. -/
theorem chunkArray_nonpos_drops_items_witness :
    chunkArray ([1, 2, 3] : List Nat) (-2) = [] ∧
    processBatch ([1, 2, 3] : List Nat) (fun b => .ok b)
      { batchSize := -2, concurrency := 3 } = (.ok [], []) :=
  chunkArray_nonpos_drops_items (-2) (by decide) [1, 2, 3] (fun b => .ok b) 3

/-! ## Claim C8 — compression threshold and round-trip -/

/-- C8 (amended): `compressData` gzips exactly the inputs of length at
least the threshold; gzip output opens with the magic bytes `0x1f 0x8b`;
`decompressData` inverts `gzip` and passes non-magic data through
unchanged; and the round-trip `decompress (compress x) = x` holds whenever
`x` is long enough to be gzipped *or* does not itself begin with the gzip
magic.  (A short input that happens to begin with `0x1f 0x8b` is passed
through raw by `compressData` and then misparsed as gzip data by
`decompressData` — see the counterexample.) -/
theorem compress_decompress_roundtrip (t : Nat) (x : List Nat) :
    (compressData t x = gzip x ↔ t ≤ x.length) ∧
    (gzip x).take 2 = [0x1f, 0x8b] ∧
    decompressData (gzip x) = .ok x ∧
    (∀ d : List Nat, d.take 2 ≠ [0x1f, 0x8b] → decompressData d = .ok d) ∧
    (t ≤ x.length ∨ x.take 2 ≠ [0x1f, 0x8b] →
      decompressData (compressData t x) = .ok x) := by
  have hgz : decompressData (gzip x) = .ok x := by
    simp [gzip, decompressData, ungzip]
  have hpass : ∀ d : List Nat, d.take 2 ≠ [0x1f, 0x8b] →
      decompressData d = .ok d := by
    intro d hd
    match d with
    | [] => rfl
    | [a] => rfl
    | a :: b :: rest =>
      have : ¬(a = 0x1f ∧ b = 0x8b) := by
        intro ⟨ha, hb⟩
        exact hd (by simp [ha, hb])
      simp [decompressData, this]
  refine ⟨⟨?_, ?_⟩, rfl, hgz, hpass, ?_⟩
  · intro hcomp
    by_contra hnot
    have hlt : x.length < t := by omega
    have hx : compressData t x = x := by simp [compressData, hlt]
    have hxg : x = gzip x := hx.symm.trans hcomp
    have := congrArg List.length hxg
    simp [gzip] at this
    omega
  · intro hle
    simp [compressData, Nat.not_lt.mpr hle]
  · intro hcase
    rcases hcase with hle | hm
    · rw [show compressData t x = gzip x by
        simp [compressData, Nat.not_lt.mpr hle]]
      exact hgz
    · by_cases hlt : x.length < t
      · rw [show compressData t x = x by simp [compressData, hlt]]
        exact hpass x hm
      · rw [show compressData t x = gzip x by simp [compressData, hlt]]
        exact hgz

/-- Witness for `compress_decompress_roundtrip`: the round-trip at an
above-threshold input and the pass-through at a non-gzip input. -/
theorem compress_decompress_roundtrip_witness :
    decompressData (compressData 2 [1, 2, 3]) = .ok [1, 2, 3] ∧
    decompressData [5, 6] = .ok [5, 6] :=
  ⟨(compress_decompress_roundtrip 2 [1, 2, 3]).2.2.2.2 (.inl (by decide)),
   (compress_decompress_roundtrip 2 [1, 2, 3]).2.2.2.1 [5, 6] (by decide)⟩

/-- Counterexample to C8 as stated: the byte sequence `[0x1f, 0x8b]` is
below the (default 1024) threshold, so `compressData` passes it through
raw; `decompressData` then sees the gzip magic, attempts to ungzip
non-gzip data, and fails — the round-trip does not return the input. -/
theorem compress_decompress_roundtrip_counterexample :
    decompressData (compressData 1024 [0x1f, 0x8b]) =
      .error (.unknown "Decompression failed") ∧
    decompressData (compressData 1024 [0x1f, 0x8b]) ≠
      .ok [0x1f, 0x8b] := by
  refine ⟨rfl, ?_⟩
  intro h
  have h' : (Except.error (SyncError.unknown "Decompression failed") :
      Except SyncError (List Nat)) = .ok [0x1f, 0x8b] := h
  exact Except.noConfusion h'

/-! ## Claim C7 — retry with exponential backoff -/

/-- Every `retryGo` run executes the task at least once. -/
theorem retryGo_execs_pos (config : RetryConfig)
    (outcomes : Nat → Except SyncError α) (remaining current : Nat) :
    1 ≤ (retryGo config outcomes remaining current).execs := by
  induction remaining generalizing current with
  | zero =>
    cases ho : outcomes current <;> simp [retryGo, ho]
  | succ r ih =>
    cases ho : outcomes current with
    | ok a => simp [retryGo, ho]
    | error e =>
      by_cases hr : isRetryable e <;> simp [retryGo, ho, hr]

/-- `retryGo` executes the task at most `remaining + 1` times. -/
theorem retryGo_execs_le (config : RetryConfig)
    (outcomes : Nat → Except SyncError α) (remaining current : Nat) :
    (retryGo config outcomes remaining current).execs ≤ remaining + 1 := by
  induction remaining generalizing current with
  | zero =>
    cases ho : outcomes current <;> simp [retryGo, ho]
  | succ r ih =>
    cases ho : outcomes current with
    | ok a => simp [retryGo, ho]
    | error e =>
      by_cases hr : isRetryable e <;> simp [retryGo, ho, hr]
      exact ih (current + 1)

/-- The delays of a `retryGo` run are exactly
`calculateBackoff current, calculateBackoff (current+1), …`, one per
retry performed. -/
theorem retryGo_delays (config : RetryConfig)
    (outcomes : Nat → Except SyncError α) (remaining current : Nat) :
    (retryGo config outcomes remaining current).delays =
      (List.range ((retryGo config outcomes remaining current).execs - 1)).map
        (fun i => calculateBackoff (current + i) config) := by
  induction remaining generalizing current with
  | zero =>
    cases ho : outcomes current <;> simp [retryGo, ho]
  | succ r ih =>
    cases ho : outcomes current with
    | ok a => simp [retryGo, ho]
    | error e =>
      by_cases hr : isRetryable e
      · have hpos := retryGo_execs_pos config outcomes r (current + 1)
        obtain ⟨k, hk⟩ : ∃ k,
            (retryGo config outcomes r (current + 1)).execs = k + 1 :=
          ⟨_, (Nat.succ_pred_eq_of_pos hpos).symm⟩
        simp only [retryGo, ho, hr, if_true]
        rw [ih (current + 1), hk]
        simp only [Nat.add_sub_cancel, List.range_succ_eq_map, List.map_cons,
          List.map_map, Nat.add_zero]
        refine List.cons_eq_cons.mpr ⟨rfl, ?_⟩
        apply List.map_congr_left
        intro a _
        simp only [Function.comp_apply]
        congr 1
        omega
      · simp [retryGo, ho, hr]

/-- Every retry of a `retryGo` run was triggered by a retryable error. -/
theorem retryGo_retryable (config : RetryConfig)
    (outcomes : Nat → Except SyncError α) (remaining current : Nat) :
    ∀ i, i < (retryGo config outcomes remaining current).execs - 1 →
      ∃ e, outcomes (current + i) = .error e ∧ isRetryable e = true := by
  induction remaining generalizing current with
  | zero =>
    intro i hi
    cases ho : outcomes current <;> simp [retryGo, ho] at hi
  | succ r ih =>
    intro i hi
    cases ho : outcomes current with
    | ok a => simp [retryGo, ho] at hi
    | error e =>
      by_cases hr : isRetryable e
      · simp only [retryGo, ho, hr, if_true, Nat.add_sub_cancel] at hi
        cases i with
        | zero => exact ⟨e, by simpa using ho, hr⟩
        | succ j =>
          have hj : j < (retryGo config outcomes r (current + 1)).execs - 1 := by
            have := retryGo_execs_pos config outcomes r (current + 1)
            omega
          obtain ⟨e', he', hr'⟩ := ih (current + 1) j hj
          refine ⟨e', ?_, hr'⟩
          rw [show current + (j + 1) = current + 1 + j by omega]
          exact he'
      · simp [retryGo, ho, hr] at hi

/-- The result of a `retryGo` run is the outcome of its last execution. -/
theorem retryGo_result (config : RetryConfig)
    (outcomes : Nat → Except SyncError α) (remaining current : Nat) :
    (retryGo config outcomes remaining current).result =
      outcomes (current +
        ((retryGo config outcomes remaining current).execs - 1)) := by
  induction remaining generalizing current with
  | zero =>
    cases ho : outcomes current <;> simp [retryGo, ho]
  | succ r ih =>
    cases ho : outcomes current with
    | ok a => simp [retryGo, ho]
    | error e =>
      by_cases hr : isRetryable e
      · have hpos := retryGo_execs_pos config outcomes r (current + 1)
        simp only [retryGo, ho, hr, if_true, Nat.add_sub_cancel]
        rw [ih (current + 1)]
        congr 1
        omega
      · simp [retryGo, ho, hr]

/-- C7 (amended): a `retryWithBackoff` run executes the task at most
`max 1 maxAttempts` times (with `maxAttempts = 0` the task still runs
once — see the counterexample); the delay before the retry after attempt
`n = i + 1` is `min(initialDelay · backoffFactor^(n-1), maxDelay)`; every
retry was triggered by an error that is network-retryable or
auth-requires-refresh; and the surfaced result is the outcome of the last
execution (in particular, the last error when attempts are exhausted). -/
theorem retryWithBackoff_spec (config : RetryConfig)
    (outcomes : Nat → Except SyncError α) :
    (retryWithBackoff config outcomes).execs ≤ max 1 config.maxAttempts ∧
    (retryWithBackoff config outcomes).delays =
      (List.range ((retryWithBackoff config outcomes).execs - 1)).map
        (fun i =>
          min (config.initialDelay * config.backoffFactor ^ i)
            config.maxDelay) ∧
    (∀ i, i < (retryWithBackoff config outcomes).execs - 1 →
      ∃ e, outcomes (1 + i) = .error e ∧ isRetryable e = true) ∧
    (retryWithBackoff config outcomes).result =
      outcomes ((retryWithBackoff config outcomes).execs) := by
  refine ⟨?_, ?_, ?_, ?_⟩
  · have := retryGo_execs_le config outcomes (config.maxAttempts - 1) 1
    unfold retryWithBackoff
    omega
  · rw [retryWithBackoff, retryGo_delays]
    apply List.map_congr_left
    intro i _
    simp [calculateBackoff]
  · exact retryGo_retryable config outcomes (config.maxAttempts - 1) 1
  · have hpos := retryGo_execs_pos config outcomes (config.maxAttempts - 1) 1
    rw [retryWithBackoff, retryGo_result]
    congr 1
    unfold retryWithBackoff at *
    omega

/-- Witness for `retryWithBackoff_spec`: with `maxAttempts = 3` the flaky
task runs three times, both delays were preceded by retryable errors,
and the result is the final success. -/
theorem retryWithBackoff_spec_witness :
    ((retryWithBackoff ⟨3, 10, 100, 2⟩ flakyTask).execs ≤ max 1 3) ∧
    (∃ e, flakyTask (1 + 0) = .error e ∧ isRetryable e = true) :=
  ⟨(retryWithBackoff_spec ⟨3, 10, 100, 2⟩ flakyTask).1,
   (retryWithBackoff_spec ⟨3, 10, 100, 2⟩ flakyTask).2.2.1 0 (by decide)⟩

/-- Counterexample to C7 as stated: with `maxAttempts = 0` the operation
is still executed once, which exceeds the claimed bound of "at most
`max_attempts` times". -/
theorem retryWithBackoff_counterexample :
    (retryWithBackoff ⟨0, 10, 100, 2⟩
      (fun _ => (.error (.network "down" true none) :
        Except SyncError Nat))).execs = 1 ∧
    ¬((retryWithBackoff ⟨0, 10, 100, 2⟩
      (fun _ => (.error (.network "down" true none) :
        Except SyncError Nat))).execs ≤
        (⟨0, 10, 100, 2⟩ : RetryConfig).maxAttempts) := by
  constructor <;> decide

/-! ## Claim C9 — `clear_before` removes exactly old synced rows -/

/-- C9: `clearHistory t` removes exactly the rows with `synced = true` and
`timestamp < t`: membership characterization, no unsynced row is ever
removed, and synced rows with `timestamp ≥ t` survive — in both the
SQL-backed tracker and the memory tracker (where the synced flags of the
surviving rows are also unchanged; id uniqueness, guaranteed by the
`uuidv4` ids `recordChange` assigns, is the hypothesis for that half). -/
theorem clearHistory_spec (log : List ChangeRow) (t : Nat)
    (st : MemTrackerState) (hids : (st.changes.map Change.id).Nodup) :
    (∀ r, r ∈ clearHistoryDuckdb log t ↔
      r ∈ log ∧ ¬(r.change.timestamp < t ∧ r.synced = true)) ∧
    (∀ r ∈ log, r.synced = false → r ∈ clearHistoryDuckdb log t) ∧
    (∀ r ∈ log, r.synced = true → t ≤ r.change.timestamp →
      r ∈ clearHistoryDuckdb log t) ∧
    (∀ c, c ∈ (clearHistoryMemory st t).changes ↔
      c ∈ st.changes ∧ ¬(c.timestamp < t ∧ c.id ∈ st.syncedIds)) ∧
    (∀ c ∈ (clearHistoryMemory st t).changes,
      (c.id ∈ (clearHistoryMemory st t).syncedIds ↔
        c.id ∈ st.syncedIds)) := by
  have hduck : ∀ r, r ∈ clearHistoryDuckdb log t ↔
      r ∈ log ∧ ¬(r.change.timestamp < t ∧ r.synced = true) := by
    intro r
    simp only [clearHistoryDuckdb, List.mem_filter, decide_eq_true_eq]
  have hmem : ∀ c, c ∈ (clearHistoryMemory st t).changes ↔
      c ∈ st.changes ∧ ¬(c.timestamp < t ∧ c.id ∈ st.syncedIds) := by
    intro c
    simp only [clearHistoryMemory, List.mem_filter, decide_eq_true_eq]
  refine ⟨hduck, ?_, ?_, hmem, ?_⟩
  · intro r hr hs
    exact (hduck r).mpr ⟨hr, by simp [hs]⟩
  · intro r hr hs ht
    exact (hduck r).mpr ⟨hr, by omega⟩
  · intro c hc
    obtain ⟨hcs, hkeep⟩ := (hmem c).mp hc
    have hnot : ¬((st.changes.filter fun c' =>
        c'.timestamp < t ∧ c'.id ∈ st.syncedIds).any (·.id = c.id)) =
        true := by
      intro hany
      obtain ⟨x, hx, heq⟩ := List.any_eq_true.mp hany
      rw [List.mem_filter] at hx
      have hxcond : x.timestamp < t ∧ x.id ∈ st.syncedIds := by
        simpa using hx.2
      have heq' : x.id = c.id := by simpa using heq
      have hcc : x = c := List.inj_on_of_nodup_map hids hx.1 hcs heq'
      subst hcc
      exact hkeep hxcond
    constructor
    · intro hin
      exact List.mem_of_mem_filter hin
    · intro hin
      simp only [clearHistoryMemory, List.mem_filter, decide_eq_true_eq]
      exact ⟨hin, hnot⟩

/-- Witness for `clearHistory_spec`: the old unsynced row survives
`clearHistory 10`, and `memSt`'s surviving row keeps its synced status. -/
theorem clearHistory_spec_witness :
    rowU ∈ clearHistoryDuckdb [rowS, rowU] 10 ∧
    (chB.id ∈ (clearHistoryMemory memSt 10).syncedIds ↔
      chB.id ∈ memSt.syncedIds) := by
  have h := clearHistory_spec [rowS, rowU] 10 memSt (by
    show (["a", "b"] : List String).Nodup
    decide)
  refine ⟨h.2.1 rowU (List.mem_cons_of_mem rowS (List.mem_cons_self rowU []))
    rfl, h.2.2.2.2 chB ?_⟩
  refine (h.2.2.2.1 chB).mpr
    ⟨List.mem_cons_of_mem _ (List.mem_cons_self chB []), ?_⟩
  intro hcond
  have : ("b" : String) ∈ (["a"] : List String) := hcond.2
  simp at this

/-! ## Claim C5 — `unsynced(since)` contents and ordering -/

/-- Membership in `insertByTs` is membership in the inserted element or
the base list. -/
theorem mem_insertByTs {c a : ChangeRow} {l : List ChangeRow} :
    a ∈ insertByTs c l ↔ a = c ∨ a ∈ l := by
  induction l with
  | nil => simp [insertByTs]
  | cons d ds ih =>
    by_cases h : c.change.timestamp ≤ d.change.timestamp
    · simp [insertByTs, h]
    · simp [insertByTs, h, ih]
      tauto

/-- `insertByTs` preserves sortedness by timestamp. -/
theorem insertByTs_pairwise {c : ChangeRow} {l : List ChangeRow}
    (hl : l.Pairwise fun a b => a.change.timestamp ≤ b.change.timestamp) :
    (insertByTs c l).Pairwise
      fun a b => a.change.timestamp ≤ b.change.timestamp := by
  induction l with
  | nil => simp [insertByTs]
  | cons d ds ih =>
    rw [List.pairwise_cons] at hl
    obtain ⟨hd, hds⟩ := hl
    by_cases h : c.change.timestamp ≤ d.change.timestamp
    · rw [insertByTs, if_pos h, List.pairwise_cons]
      refine ⟨?_, List.pairwise_cons.mpr ⟨hd, hds⟩⟩
      intro x hx
      rcases List.mem_cons.mp hx with rfl | hx'
      · exact h
      · exact le_trans h (hd x hx')
    · rw [insertByTs, if_neg h, List.pairwise_cons]
      refine ⟨?_, ih hds⟩
      intro x hx
      rcases mem_insertByTs.mp hx with rfl | hx'
      · omega
      · exact hd x hx'

/-- `sortByTs` produces a timestamp-sorted list. -/
theorem sortByTs_pairwise (l : List ChangeRow) :
    (sortByTs l).Pairwise
      fun a b => a.change.timestamp ≤ b.change.timestamp := by
  induction l with
  | nil => simp [sortByTs]
  | cons c cs ih => exact insertByTs_pairwise ih

/-- `sortByTs` neither adds nor removes elements. -/
theorem mem_sortByTs {a : ChangeRow} {l : List ChangeRow} :
    a ∈ sortByTs l ↔ a ∈ l := by
  induction l with
  | nil => simp [sortByTs]
  | cons c cs ih => simp [sortByTs, mem_insertByTs, ih]

/-- Stability of `insertByTs`: restricted to any one timestamp value, the
inserted element lands in front of the equal-timestamp elements and the
rest keep their order. -/
theorem insertByTs_filter_ts (c : ChangeRow) (l : List ChangeRow) (k : Nat) :
    (insertByTs c l).filter (fun r => r.change.timestamp = k) =
      if c.change.timestamp = k then
        c :: l.filter (fun r => r.change.timestamp = k)
      else l.filter (fun r => r.change.timestamp = k) := by
  induction l with
  | nil => by_cases hk : c.change.timestamp = k <;> simp [insertByTs, hk]
  | cons d ds ih =>
    by_cases h : c.change.timestamp ≤ d.change.timestamp
    · rw [insertByTs, if_pos h]
      by_cases hk : c.change.timestamp = k <;> simp [List.filter_cons, hk]
    · rw [insertByTs, if_neg h]
      by_cases hk : c.change.timestamp = k
      · have hdk : ¬(d.change.timestamp = k) := by omega
        simp [List.filter_cons, hk, hdk, ih]
      · by_cases hdk : d.change.timestamp = k <;>
          simp [List.filter_cons, hk, hdk, ih]

/-- Stability of `sortByTs`: the subsequence at any fixed timestamp equals
the input's subsequence at that timestamp, i.e. ties keep insertion
order. -/
theorem sortByTs_filter_ts (l : List ChangeRow) (k : Nat) :
    (sortByTs l).filter (fun r => r.change.timestamp = k) =
      l.filter (fun r => r.change.timestamp = k) := by
  induction l with
  | nil => simp [sortByTs]
  | cons c cs ih =>
    rw [sortByTs, insertByTs_filter_ts, List.filter_cons]
    by_cases hk : c.change.timestamp = k <;> simp [hk, ih]

/-- C5: every element returned by `unsynced(since)` has `synced = false`
and `timestamp > since`, and the sequence ascends by timestamp with ties
in insertion order.  For the SQL-backed tracker this holds for every log
(`ORDER BY timestamp ASC` is modelled as a stable sort, ties reported in
row order); for the memory tracker — which only filters, never sorts — it
holds for the states `recordChange` actually builds, whose `Date.now()`
timestamps are non-decreasing in insertion order (the hypothesis). -/
theorem getUnsyncedChanges_spec (log : List ChangeRow) (since : Nat)
    (st : MemTrackerState)
    (hmono : st.changes.Pairwise fun a b => a.timestamp ≤ b.timestamp) :
    (∀ r ∈ getUnsyncedChangesDuckdb log since,
      r.synced = false ∧ since < r.change.timestamp) ∧
    (getUnsyncedChangesDuckdb log since).Pairwise
      (fun a b => a.change.timestamp ≤ b.change.timestamp) ∧
    (∀ k, (getUnsyncedChangesDuckdb log since).filter
        (fun r => r.change.timestamp = k) =
      (log.filter fun r => r.synced = false ∧ since < r.change.timestamp).filter
        (fun r => r.change.timestamp = k)) ∧
    (∀ c ∈ getUnsyncedChangesMemory st since,
      c.id ∉ st.syncedIds ∧ since < c.timestamp) ∧
    (getUnsyncedChangesMemory st since).Pairwise
      (fun a b => a.timestamp ≤ b.timestamp) ∧
    (getUnsyncedChangesMemory st since).Sublist st.changes := by
  refine ⟨?_, sortByTs_pairwise _, fun k => sortByTs_filter_ts _ k, ?_, ?_, ?_⟩
  · intro r hr
    have := mem_sortByTs.mp hr
    rw [List.mem_filter] at this
    simpa using this.2
  · intro c hc
    rw [getUnsyncedChangesMemory, List.mem_filter] at hc
    simpa using hc.2
  · exact List.Pairwise.sublist (List.filter_sublist _) hmono
  · exact List.filter_sublist _

/-- Witness for `getUnsyncedChanges_spec` at a two-element ordered memory
state. -/
theorem getUnsyncedChanges_spec_witness :
    (memSt.changes.Pairwise fun a b => a.timestamp ≤ b.timestamp) ∧
    (getUnsyncedChangesMemory memSt 0).Pairwise
      (fun a b => a.timestamp ≤ b.timestamp) :=
  ⟨by decide,
   (getUnsyncedChanges_spec [rowS, rowU] 0 memSt (by decide)).2.2.2.2.1⟩

/-! ## Claim C6 — conflict resolution strategies -/

/-- A failing conflict anywhere in the batch fails `resolveConflicts`. -/
theorem resolveConflicts_error_of_mem (conflicts : List Conflict)
    (strategy : ConflictStrategy)
    (hfail : ∃ c ∈ conflicts, ∃ e, resolveConflict c strategy = .error e) :
    ∃ e, resolveConflicts conflicts strategy = .error e := by
  induction conflicts with
  | nil => simp at hfail
  | cons c rest ih =>
    obtain ⟨c', hc', e, he⟩ := hfail
    cases hres : resolveConflict c strategy with
    | error e0 => exact ⟨e0, by simp [resolveConflicts, hres]⟩
    | ok r =>
      have hrest : c' ∈ rest := by
        rcases List.mem_cons.mp hc' with rfl | h
        · rw [hres] at he
          exact absurd he (by simp)
        · exact h
      obtain ⟨e1, he1⟩ := ih ⟨c', hrest, e, he⟩
      exact ⟨e1, by simp [resolveConflicts, hres, he1]⟩

/-- C6: the resolver returns the local value under `local-wins`, the
remote value under `remote-wins`, the side with the larger timestamp (ties
to remote) under `latest-wins`, and an error under `manual`; and one
failing conflict fails the whole batch resolution. -/
theorem resolveConflict_spec (c : Conflict) (conflicts : List Conflict)
    (strategy : ConflictStrategy)
    (hfail : ∃ c' ∈ conflicts, ∃ e, resolveConflict c' strategy = .error e) :
    resolveConflict c .localWins = .ok c.localValue ∧
    resolveConflict c .remoteWins = .ok c.remoteValue ∧
    resolveConflict c .latestWins =
      .ok (if c.remoteTimestamp < c.localTimestamp then c.localValue
           else c.remoteValue) ∧
    (c.localTimestamp = c.remoteTimestamp →
      resolveConflict c .latestWins = .ok c.remoteValue) ∧
    (∃ msg, resolveConflict c .manual = .error msg) ∧
    (∃ e, resolveConflicts conflicts strategy = .error e) := by
  refine ⟨rfl, rfl, rfl, ?_, ⟨_, rfl⟩,
    resolveConflicts_error_of_mem conflicts strategy hfail⟩
  intro hts
  simp [resolveConflict, hts]

/-- Witness for `resolveConflict_spec`: under `manual` the singleton batch
fails. -/
theorem resolveConflict_spec_witness :
    ∃ e, resolveConflicts [conflictW] ConflictStrategy.manual = .error e :=
  (resolveConflict_spec conflictW [conflictW] .manual
    ⟨conflictW, List.mem_cons_self conflictW [],
     "Manual conflict resolution required for " ++ conflictW.table,
     rfl⟩).2.2.2.2.2

/-! ## Claim C4 — remote store client error taxonomy -/

/-- C4 (amended): a transport failure or timeout yields
`Network{retryable: true}` for every operation.  For the operations that
go through `parseResponse` (`executeSql`, `downloadData`), *every* non-ok
HTTP response — 401, other 4xx and 5xx alike, with or without a parseable
error body — surfaces as `Unknown("Failed to parse response")`: the body
throws plain-object `Auth`/`Network` errors (a parseable 401 throws
`authError(msg, true)`), but the catch handler's `instanceof Error` gate
rejects plain objects and replaces them all with `unknownError`; an ok
response whose payload fails to decode surfaces the same way, and an ok
response that decodes is passed through.  `uploadData` does not use
`parseResponse` and maps every non-ok status — 4xx included — to
`Network{retryable: true, status}`; `authenticate` maps non-ok to
`Auth{requires_refresh: false}`. -/
theorem parseResponse_spec (status : Nat) (msg : String) (body : ApiBody)
    (decoded : Except SyncError Unit) (e : SyncError) :
    (parseResponse false status body decoded =
      .error (.unknown "Failed to parse response")) ∧
    parseResponseThrown 401 (.apiError msg) = .plainObject (.auth msg true) ∧
    (parseResponse true status body (Except.ok ()) = .ok ()) ∧
    (parseResponse true status body (Except.error e : Except SyncError Unit) =
      .error (.unknown "Failed to parse response")) ∧
    isRetryable (transportFailure msg) = true ∧
    (uploadDataResponse false status =
      .error (.network ("Failed to upload data: HTTP " ++ toString status)
        true (some status))) ∧
    authenticateResponse false = .error (.auth "Invalid token" false) :=
  ⟨rfl, rfl, rfl, rfl, rfl, rfl, rfl⟩

/-- Counterexample to C4 as stated: a concrete 401 response with a
parseable error body surfaces as `Unknown("Failed to parse response")` —
not as any `Auth` error, let alone one with `requires_refresh = false` —
and a 400 from `uploadData` yields a *retryable* network error, not a
non-retryable one. -/
theorem parseResponse_counterexample :
    parseResponse false 401 (.apiError "Unauthorized") (Except.ok ()) =
      .error (.unknown "Failed to parse response") ∧
    (SyncError.unknown "Failed to parse response" ≠
      SyncError.auth "Unauthorized" false) ∧
    uploadDataResponse false 400 =
      .error (.network "Failed to upload data: HTTP 400" true (some 400)) ∧
    (SyncError.network "Failed to upload data: HTTP 400" true (some 400) ≠
      SyncError.network "Failed to upload data: HTTP 400" false
        (some 400)) := by
  refine ⟨rfl, by decide, rfl, by decide⟩

/-! ## Claim C3 — `sync()` progress emissions and final state -/

/-- C3 (amended): every invocation of `sync()` emits `Syncing` states with
progress 0, 10, 30, 40, 60, 80 — in that order and nothing else; when
tables are configured the run completes and finishes with `Idle`
(unconditionally — the `Conflict` transition lives only in the auto-sync
tick handler, and `sync`'s own conflict list is always empty since
detection runs against an empty remote set); progress 100 is never
emitted; with no tables configured the pull phase fails and no final
`Idle` is emitted. -/
theorem sync_state_trace (cfg : SyncConfig) (deps : EngineDeps) :
    (sync cfg deps).2.1 =
      [SyncState.syncing 0, .syncing 10, .syncing 30, .syncing 40,
       .syncing 60, .syncing 80] ++
        (if cfg.tables.isEmpty then [] else [.idle]) ∧
    SyncState.syncing 100 ∉ (sync cfg deps).2.1 ∧
    ∀ cs, SyncState.conflictState cs ∉ (sync cfg deps).2.1 := by
  have htr : (sync cfg deps).2.1 =
      [SyncState.syncing 0, .syncing 10, .syncing 30, .syncing 40,
       .syncing 60, .syncing 80] ++
        (if cfg.tables.isEmpty then [] else [.idle]) := by
    by_cases h : cfg.tables.isEmpty <;> simp [sync, pull, h]
  refine ⟨htr, ?_, ?_⟩
  · rw [htr]
    by_cases h : cfg.tables.isEmpty <;> simp [h]
  · intro cs
    rw [htr]
    by_cases h : cfg.tables.isEmpty <;> simp [h]

/-- Witness for `sync_state_trace` at a concrete configuration with
tables configured. -/
theorem sync_state_trace_witness :
    (sync cfg2 deps2).2.1 =
      [SyncState.syncing 0, .syncing 10, .syncing 30, .syncing 40,
       .syncing 60, .syncing 80] ++
        (if cfg2.tables.isEmpty then [] else [SyncState.idle]) :=
  (sync_state_trace cfg2 deps2).1

/-- Counterexample to C3 as stated: a concrete `sync()` run whose state
trace contains no `Syncing` with progress 100 (the emitted set is
{0, 10, 30, 40, 60, 80}), so the claimed emission of progress 100 does
not happen. -/
theorem sync_state_trace_counterexample :
    (sync cfg1 deps1).2.1 =
      [SyncState.syncing 0, .syncing 10, .syncing 30, .syncing 40,
       .syncing 60, .syncing 80, .idle] ∧
    SyncState.syncing 100 ∉ (sync cfg1 deps1).2.1 := by
  have h : (sync cfg1 deps1).2.1 =
      [SyncState.syncing 0, .syncing 10, .syncing 30, .syncing 40,
       .syncing 60, .syncing 80, .idle] := rfl
  refine ⟨h, ?_⟩
  rw [h]
  simp

/-! ## Claim C1 — `sync()` detects conflicts against an empty remote set -/

/-- C1 (the code bug, evaluated at the failing input): with one local
update of `users` id 1 and a diverging remote row for the same key,
`sync()` still returns an empty conflicts list, because the engine calls
`detectConflicts(localChanges, [])` and discards the downloaded remote
data; detecting against the actually-downloaded remote change finds the
conflict. -/
theorem sync_conflicts_always_empty :
    (sync cfg1 deps1).1 =
      .ok { pushed := 1, pulled := 1, conflicts := [] } ∧
    detectConflicts [u1] [rc1] ≠ [] := by
  refine ⟨rfl, ?_⟩
  intro hempty
  have h0 : (detectConflicts [u1] [rc1]).length = 0 := by
    rw [hempty]
    rfl
  have h1 : (detectConflicts [u1] [rc1]).length = 1 := rfl
  omega

/-! ## Claim C2 — the table filter is not applied in the push flow -/

/-- C2 (the code bug, evaluated at the failing input): with a configured
filter excluding `logs` and unsynced changes on `users` and `logs`,
`push` sends an upload batch for `logs` anyway — `createTableFilter` /
`filterChangesByTable` are never invoked by the push flow. -/
theorem push_ignores_table_filter :
    cfg2.tableFilter = some fcfg2 ∧
    createTableFilter fcfg2 "logs" = false ∧
    (push cfg2 deps2).2.map Upload.table = ["users", "logs"] ∧
    "logs" ∈ (push cfg2 deps2).2.map Upload.table := by
  refine ⟨rfl, rfl, rfl, ?_⟩
  rw [show (push cfg2 deps2).2.map Upload.table = ["users", "logs"]
    from rfl]
  simp

end DuckDBSync
